import Mathlib

/-!
Verification development for the web-studio generation pipeline.

This file gives a shallow embedding, in Lean 4, of the JSON handling,
retry/timeout wrappers, streaming loops, cost accounting, API-key checks
and pipeline runners of the repository, and proves or refutes the frozen
claims about them.  Machine integers of the source are modelled as Nat,
Int and Rat; fallible code returns Option or Except; thrown JavaScript
errors are modelled as the error branch of Except.  Timing-dependent
fields of the source (latency, executionId, timestamps) are either
omitted or passed in as explicit parameters, as noted at each definition.
-/

set_option maxRecDepth 4000

/-! ## Character and list helpers

Brace and quote characters are named so that embedded test strings can be
assembled without writing brace or quote characters inside string
literals. -/

def lbraceC : Char := Char.ofNat 123

def rbraceC : Char := Char.ofNat 125

def sqC : Char := Char.ofNat 39

def sqWrap (s : String) : String := String.mk [sqC] ++ s ++ String.mk [sqC]

/-- Whitespace accepted between JSON tokens (the set of JSON.parse). -/
def isJsonWs (c : Char) : Bool := c == ' ' || c == '\t' || c == '\n' || c == '\r'

/-- Whitespace of the JavaScript regex class backslash-s and of
String.prototype.trim, restricted to the ASCII range (all embedded
inputs are ASCII). -/
def isJsWsChar (c : Char) : Bool :=
  c == ' ' || c == '\t' || c == '\n' || c == '\r' || c == Char.ofNat 12 || c == Char.ofNat 11

def skipJsonWs (cs : List Char) : List Char := cs.dropWhile isJsonWs

/-- Containment of one character list in another at any position. -/
def listIsSub (pat : List Char) : List Char → Bool
  | [] => pat.isEmpty
  | c :: rest => pat.isPrefixOf (c :: rest) || listIsSub pat rest

/-- Substring containment on strings, used to model
String.prototype.includes. -/
def containsSub (s pat : String) : Bool := listIsSub pat.data s.data

/-! ## JSON values

The JSON data model.  Numbers are kept exactly as a decimal mantissa and
a power-of-ten exponent, so no floating point enters the embedding; on
the integer literals exercised by the claims this coincides with the
JavaScript number value. -/

inductive Json where
  | null : Json
  | bool (b : Bool) : Json
  | num (mantissa : Int) (exp10 : Int) : Json
  | str (s : String) : Json
  | arr (elems : List Json) : Json
  | obj (fields : List (String × Json)) : Json

/-! ## A model of JSON.parse

A strict recursive-descent parser: double-quoted strings only, no
trailing commas, no single-quoted keys — the behaviours that make the
repair path of the source matter.  Recursion is fueled; fuel equal to
the input length plus one always suffices because every unit of fuel
spent consumes at least one input character. -/

def hexVal (c : Char) : Option Nat :=
  if c.isDigit then some (c.toNat - 48)
  else if 'a' ≤ c && c ≤ 'f' then some (c.toNat - 87)
  else if 'A' ≤ c && c ≤ 'F' then some (c.toNat - 55)
  else none

/-- Body of a JSON string after the opening quote.  Handles the escape
sequences of JSON; a bare control character is rejected, as JSON.parse
rejects it.  (Surrogate-pair combination of two adjacent backslash-u
escapes is not modelled; no embedded input uses backslash-u.) -/
def parseStringBody : List Char → List Char → Option (String × List Char)
  | [], _ => none
  | c :: rest, acc =>
    if c == '"' then some (String.mk acc.reverse, rest)
    else if c == '\\' then
      match rest with
      | [] => none
      | e :: rest2 =>
        if e == '"' then parseStringBody rest2 ('"' :: acc)
        else if e == '\\' then parseStringBody rest2 ('\\' :: acc)
        else if e == '/' then parseStringBody rest2 ('/' :: acc)
        else if e == 'b' then parseStringBody rest2 (Char.ofNat 8 :: acc)
        else if e == 'f' then parseStringBody rest2 (Char.ofNat 12 :: acc)
        else if e == 'n' then parseStringBody rest2 ('\n' :: acc)
        else if e == 'r' then parseStringBody rest2 ('\r' :: acc)
        else if e == 't' then parseStringBody rest2 ('\t' :: acc)
        else if e == 'u' then
          match rest2 with
          | h1 :: h2 :: h3 :: h4 :: rest3 =>
            match hexVal h1, hexVal h2, hexVal h3, hexVal h4 with
            | some a, some b, some c2, some d =>
              parseStringBody rest3 (Char.ofNat (((a * 16 + b) * 16 + c2) * 16 + d) :: acc)
            | _, _, _, _ => none
          | _ => none
        else none
    else if c.toNat < 32 then none
    else parseStringBody rest (c :: acc)

def digitsToNat (ds : List Char) : Nat := ds.foldl (fun a c => a * 10 + (c.toNat - 48)) 0

/-- Fraction part of a JSON number: either absent, or a dot followed by
at least one digit. -/
def parseFracPart (cs : List Char) : Option (List Char × List Char) :=
  match cs with
  | c :: rest =>
    if c == '.' then
      let ds := rest.takeWhile Char.isDigit
      if ds.isEmpty then none else some (ds, rest.drop ds.length)
    else some ([], cs)
  | [] => some ([], [])

/-- Exponent part of a JSON number: either absent (exponent 0), or an e
marker, an optional sign and at least one digit. -/
def parseExpPart (cs : List Char) : Option (Int × List Char) :=
  match cs with
  | c :: rest =>
    if c == 'e' || c == 'E' then
      let signAndRest : Int × List Char :=
        match rest with
        | d :: r2 => if d == '+' then (1, r2) else if d == '-' then (-1, r2) else (1, rest)
        | [] => (1, rest)
      let ds := signAndRest.2.takeWhile Char.isDigit
      if ds.isEmpty then none
      else some (signAndRest.1 * Int.ofNat (digitsToNat ds), signAndRest.2.drop ds.length)
    else some (0, cs)
  | [] => some (0, [])

/-- A JSON number: optional minus, an integer part with no leading zero,
optional fraction, optional exponent. -/
def parseNumber (cs : List Char) : Option (Json × List Char) :=
  let negAndRest : Bool × List Char :=
    match cs with
    | c :: rest => if c == '-' then (true, rest) else (false, cs)
    | [] => (false, cs)
  match negAndRest.2 with
  | c :: rest =>
    let intAndRest : Option (List Char × List Char) :=
      if c == '0' then some ([c], rest)
      else if c.isDigit then
        let more := rest.takeWhile Char.isDigit
        some (c :: more, rest.drop more.length)
      else none
    match intAndRest with
    | none => none
    | some (intDs, cs1) =>
      match parseFracPart cs1 with
      | none => none
      | some (fracDs, cs2) =>
        match parseExpPart cs2 with
        | none => none
        | some (expVal, cs3) =>
          let mantNat := digitsToNat (intDs ++ fracDs)
          let mant : Int := if negAndRest.1 then -(Int.ofNat mantNat) else Int.ofNat mantNat
          some (Json.num mant (expVal - Int.ofNat fracDs.length), cs3)
  | [] => none

mutual

def parseValueF : Nat → List Char → Option (Json × List Char)
  | 0, _ => none
  | fuel + 1, cs0 =>
    let cs := skipJsonWs cs0
    match cs with
    | [] => none
    | c :: rest =>
      if c == lbraceC then
        let cs1 := skipJsonWs rest
        match cs1 with
        | d :: rest1 => if d == rbraceC then some (Json.obj [], rest1) else parseMembersF fuel cs1 []
        | [] => none
      else if c == '[' then
        let cs1 := skipJsonWs rest
        match cs1 with
        | d :: rest1 => if d == ']' then some (Json.arr [], rest1) else parseElemsF fuel cs1 []
        | [] => none
      else if c == '"' then
        (parseStringBody rest []).map (fun pr => (Json.str pr.1, pr.2))
      else if ("true".data).isPrefixOf cs then some (Json.bool true, cs.drop 4)
      else if ("false".data).isPrefixOf cs then some (Json.bool false, cs.drop 5)
      else if ("null".data).isPrefixOf cs then some (Json.null, cs.drop 4)
      else parseNumber cs

def parseMembersF : Nat → List Char → List (String × Json) → Option (Json × List Char)
  | 0, _, _ => none
  | fuel + 1, cs, acc =>
    match cs with
    | c :: rest =>
      if c == '"' then
        match parseStringBody rest [] with
        | none => none
        | some (key, cs1) =>
          match skipJsonWs cs1 with
          | d :: cs2 =>
            if d == ':' then
              match parseValueF fuel cs2 with
              | none => none
              | some (v, cs3) =>
                match skipJsonWs cs3 with
                | e :: cs4 =>
                  if e == ',' then parseMembersF fuel (skipJsonWs cs4) (acc ++ [(key, v)])
                  else if e == rbraceC then some (Json.obj (acc ++ [(key, v)]), cs4)
                  else none
                | [] => none
            else none
          | [] => none
      else none
    | [] => none

def parseElemsF : Nat → List Char → List Json → Option (Json × List Char)
  | 0, _, _ => none
  | fuel + 1, cs, acc =>
    match parseValueF fuel cs with
    | none => none
    | some (v, cs1) =>
      match skipJsonWs cs1 with
      | e :: cs2 =>
        if e == ',' then parseElemsF fuel (skipJsonWs cs2) (acc ++ [v])
        else if e == ']' then some (Json.arr (acc ++ [v]), cs2)
        else none
      | [] => none

end

/-- Model of JSON.parse: whole-input parse, returning none where
JSON.parse throws a SyntaxError. -/
def jsonParseChars (cs : List Char) : Option Json :=
  match parseValueF (cs.length + 1) cs with
  | some (v, rest) => if (skipJsonWs rest).isEmpty then some v else none
  | none => none

def jsonParse (s : String) : Option Json := jsonParseChars s.data

/-! ## JavaScript value helpers

Truthiness, property access and string coercion for parsed JSON values,
as JavaScript applies them to JSON.parse results. -/

/-- JavaScript truthiness of a JSON value. -/
def jsTruthy (j : Json) : Bool :=
  match j with
  | Json.null => false
  | Json.bool b => b
  | Json.num m _ => !(m == 0)
  | Json.str s => !(s == "")
  | Json.arr _ => true
  | Json.obj _ => true

/-- Whether typeof yields the string object: true for objects, arrays
and null. -/
def jsTypeofObject (j : Json) : Bool :=
  match j with
  | Json.null => true
  | Json.arr _ => true
  | Json.obj _ => true
  | _ => false

/-- Property read on an object (first match; JSON.parse never produces
duplicate keys in its result, later duplicates overwrite earlier ones at
parse time, and no embedded input has duplicates).  none models
undefined. -/
def jsGetField (j : Json) (key : String) : Option Json :=
  match j with
  | Json.obj fs => List.lookup key fs
  | _ => none

/-- Index read on an array, for the optional-chaining index access. -/
def jsIndex (j : Json) (i : Nat) : Option Json :=
  match j with
  | Json.arr es => es.get? i
  | _ => none

mutual

/-- String coercion of a JSON value, as JavaScript String().  Exact for
strings, booleans, null and integers; decimal-exponent numbers are
rendered in mantissa-exponent form (no embedded code path coerces such
a number to a string). -/
def jsToStr : Json → String
  | Json.str s => s
  | Json.bool true => "true"
  | Json.bool false => "false"
  | Json.null => "null"
  | Json.num m e => toString m ++ (if e == 0 then "" else "e" ++ toString e)
  | Json.arr es => jsToStrList es
  | Json.obj _ => "[object Object]"

def jsToStrList : List Json → String
  | [] => ""
  | [x] => jsToStr x
  | x :: y :: xs => jsToStr x ++ "," ++ jsToStrList (y :: xs)

end

/-- The JavaScript in operator on a JSON value: own-property membership
for objects, index or length membership for arrays.  (The embedding only
reaches this behind a typeof-object guard, as the source does.) -/
def jsHasProp (j : Json) (field : String) : Bool :=
  match j with
  | Json.obj fs => fs.any (fun kv => kv.1 == field)
  | Json.arr es =>
    if field == "length" then true
    else
      match field.toNat? with
      | some n => decide (n < es.length)
      | none => false
  | _ => false

/-- Template-literal interpolation of a possibly-undefined string, as in
a JavaScript template string: undefined prints as the text undefined. -/
def optStr (o : Option String) : String := o.getD "undefined"

/-! ## extractJsonFromText

Model of extractJsonFromText: first the greedy brace regex (whose match,
when it exists, runs from the first opening brace to the last closing
brace of the text), with a parse failure returning null at once; only
when no brace match exists, the lazily captured json code fence; null
when everything fails. -/

def firstIdxOf (c : Char) (cs : List Char) : Option Nat := cs.findIdx? (· == c)

def lastIdxOf (c : Char) (cs : List Char) : Option Nat :=
  (cs.reverse.findIdx? (· == c)).map (fun k => cs.length - 1 - k)

/-- The match of the greedy brace regex: the segment from the first
opening brace to the last closing brace, provided the latter comes
after the former; none when the regex does not match. -/
def braceSubstring (cs : List Char) : Option (List Char) :=
  match firstIdxOf lbraceC cs, lastIdxOf rbraceC cs with
  | some i, some j => if i < j then some ((cs.drop i).take (j - i + 1)) else none
  | _, _ => none

/-- Earliest occurrence of pat in cs, returning the segment before it. -/
def splitBeforeInfix (pat : List Char) : List Char → Option (List Char)
  | [] => if pat.isEmpty then some [] else none
  | c :: rest =>
    if pat.isPrefixOf (c :: rest) then some []
    else (splitBeforeInfix pat rest).map (fun pre => c :: pre)

/-- Attempt of the fenced-code-block regex anchored at the start of cs:
the literal three-backticks-json opener, a whitespace run whose last
newline closes the greedy backslash-s-star-newline portion, then the
lazy capture up to the earliest newline-plus-three-backticks. -/
def tryCodeBlockAt (cs : List Char) : Option (List Char) :=
  if ("```json".data).isPrefixOf cs then
    let rest := cs.drop 7
    let wsrun := rest.takeWhile isJsWsChar
    match lastIdxOf '\n' wsrun with
    | none => none
    | some k => splitBeforeInfix ("\n```".data) (rest.drop (k + 1))
  else none

/-- Leftmost match of the fenced-code-block regex. -/
def codeBlockCapture : List Char → Option (List Char)
  | [] => none
  | c :: rest =>
    match tryCodeBlockAt (c :: rest) with
    | some cap => some cap
    | none => codeBlockCapture rest

/-- Model of extractJsonFromText (the JSON extraction of the utility
module): none is the null of the source. -/
def extractJsonFromText (text : String) : Option Json :=
  match braceSubstring text.data with
  | some sub => jsonParseChars sub
  | none =>
    match codeBlockCapture text.data with
    | some inner => jsonParseChars inner
    | none => none

/-! ## SecurityService.repairJson

Model of the JSON repair of the security module: direct parse, then the
three global regex replacements (strip a comma before a closing brace or
bracket, force double quotes around identifier keys, replace every
single quote by a double quote), then a reparse; an error when both
parses fail. -/

def isWordChar (c : Char) : Bool := c.isAlphanum || c == '_'

def isQuoteChar (c : Char) : Bool := c == '"' || c == sqC

/-- One global pass of the trailing-comma regex: each comma followed by
optional whitespace and a closing brace or bracket is dropped, keeping
the whitespace and closer; scanning resumes after the match. -/
def stripTrailingCommasF : Nat → List Char → List Char
  | 0, cs => cs
  | _ + 1, [] => []
  | fuel + 1, c :: rest =>
    if c == ',' then
      let ws := rest.takeWhile isJsWsChar
      match rest.drop ws.length with
      | d :: tail =>
        if d == rbraceC || d == ']' then ws ++ d :: stripTrailingCommasF fuel tail
        else c :: stripTrailingCommasF fuel rest
      | [] => c :: stripTrailingCommasF fuel rest
    else c :: stripTrailingCommasF fuel rest

/-- Match of the key regex at the start of cs: an optional quote, a
maximal nonempty word-character run, an optional quote, then a colon.
Returns the run and the remainder after the colon.  (A shorter-than-
maximal run can never satisfy the regex here, because the character
after a shortened run is a word character, neither a quote nor a
colon, so greedy backtracking on the run is vacuous.) -/
def tryKeyMatch (cs : List Char) : Option (List Char × List Char) :=
  let cs1 :=
    match cs with
    | c :: rest => if isQuoteChar c then rest else cs
    | [] => cs
  let r := cs1.takeWhile isWordChar
  if r.isEmpty then none
  else
    match cs1.drop r.length with
    | c :: rest =>
      if c == ':' then some (r, rest)
      else if isQuoteChar c then
        match rest with
        | d :: rest2 => if d == ':' then some (r, rest2) else none
        | [] => none
      else none
    | [] => none

/-- One global pass of the key regex, replacing each match by the run in
double quotes followed by the colon. -/
def replaceKeysF : Nat → List Char → List Char
  | 0, cs => cs
  | _ + 1, [] => []
  | fuel + 1, c :: rest =>
    match tryKeyMatch (c :: rest) with
    | some (r, after) => '"' :: (r ++ '"' :: ':' :: replaceKeysF fuel after)
    | none => c :: replaceKeysF fuel rest

def replaceSingleQuotes (cs : List Char) : List Char :=
  cs.map (fun c => if c == sqC then '"' else c)

/-- Model of SecurityService.repairJson. -/
def repairJson (s : String) : Except String Json :=
  match jsonParseChars s.data with
  | some v => Except.ok v
  | none =>
    let cs1 := stripTrailingCommasF s.data.length s.data
    let cs2 := replaceSingleQuotes (replaceKeysF cs1.length cs1)
    match jsonParseChars cs2 with
    | some v => Except.ok v
    | none => Except.error "Unable to repair malformed JSON"

/-! ## validateJsonStructure

Model of validateJsonStructure: false unless the value is a truthy
object, then a literal top-level membership test of every required field
name — each name is compared whole, a dot inside it is not a path
separator. -/

def validateJsonStructure (data : Json) (requiredFields : List String) : Bool :=
  if !(jsTruthy data) || !(jsTypeofObject data) then false
  else requiredFields.all (fun field => jsHasProp data field)

/-! ## WebsiteArchitectAgent.runAndParse

Model of the parse step of runAndParse: the streamed text is parsed with
JSON.parse; on failure the raw text is still returned, with the
architecture left undefined. -/

def runAndParseM (text : String) : String × Option Json :=
  match jsonParseChars text.data with
  | some v => (text, some v)
  | none => (text, none)

/-! ## Embedded test inputs for the JSON claims -/

def inputTrailingComma : String := "\x7b\"a\":1,\x7d"

def inputSingleQuoted : String := String.mk [lbraceC, sqC, 'a', sqC, ':', '1', rbraceC]

/-! ## Error taxonomy of the error-handling module

Thrown JavaScript errors, as the instanceof checks of the retry wrapper
distinguish them: ValidationError, RateLimitError, AppError (message,
HTTP status, code) and a plain Error with only a message. -/

inductive JsError where
  | validation (msg : String) : JsError
  | rateLimit (msg : String) : JsError
  | app (msg : String) (statusCode : Nat) (code : String) : JsError
  | generic (msg : String) : JsError
deriving DecidableEq

def JsError.message : JsError → String
  | JsError.validation m => m
  | JsError.rateLimit m => m
  | JsError.app m _ _ => m
  | JsError.generic m => m

/-- The instanceof test of withRetry: ValidationError and RateLimitError
are rethrown at once, everything else is retried. -/
def jsErrorRetryable : JsError → Bool
  | JsError.validation _ => false
  | JsError.rateLimit _ => false
  | _ => true

/-! ## Retry wrappers

Both retry loops of the source are modelled as recursion over the
remaining retry budget, with the operation given as a map from the
attempt number to its outcome.  The outcome records the result, the
number of invocations of the operation, and the list of backoff delays
slept (in milliseconds). -/

structure RetryOutcome (ε : Type) (α : Type) where
  result : Except ε α
  invocations : Nat
  delays : List Nat

/-- The message test of safeRetry for errors that are not retried. -/
def nonRetryableMsg (msg : String) : Bool :=
  containsSub msg "401" || containsSub msg "403" ||
  containsSub msg "validation" || containsSub msg "invalid"

/-- Loop of safeRetry from attempt onward with the given remaining
budget (remaining = maxRetries - attempt); the delay before the next
attempt is the capped exponential min (baseDelay * 2 ^ attempt)
maxDelay. -/
def safeRetryGo (op : Nat → Except String α) (baseDelay maxDelay : Nat) :
    Nat → Nat → RetryOutcome String α
  | attempt, remaining =>
    match op attempt with
    | Except.ok v => ⟨Except.ok v, 1, []⟩
    | Except.error e =>
      if nonRetryableMsg e then ⟨Except.error e, 1, []⟩
      else
        match remaining with
        | 0 => ⟨Except.error e, 1, []⟩
        | r + 1 =>
          let d := min (baseDelay * 2 ^ attempt) maxDelay
          let o := safeRetryGo op baseDelay maxDelay (attempt + 1) r
          ⟨o.result, o.invocations + 1, d :: o.delays⟩

/-- Model of safeRetry (defaults in the source: maxRetries 3, baseDelay
1000, maxDelay 10000). -/
def safeRetryM (op : Nat → Except String α) (maxRetries baseDelay maxDelay : Nat) :
    RetryOutcome String α :=
  safeRetryGo op baseDelay maxDelay 0 maxRetries

/-- Loop of withRetry of the error-handling module: uncapped exponential
delay baseDelay * 2 ^ attempt plus a random jitter below 1000 ms, given
here as an explicit jitter choice per attempt. -/
def withRetryGo (op : Nat → Except JsError α) (baseDelay : Nat) (jitter : Nat → Nat) :
    Nat → Nat → RetryOutcome JsError α
  | attempt, remaining =>
    match op attempt with
    | Except.ok v => ⟨Except.ok v, 1, []⟩
    | Except.error e =>
      if !(jsErrorRetryable e) then ⟨Except.error e, 1, []⟩
      else
        match remaining with
        | 0 => ⟨Except.error e, 1, []⟩
        | r + 1 =>
          let d := baseDelay * 2 ^ attempt + jitter attempt
          let o := withRetryGo op baseDelay jitter (attempt + 1) r
          ⟨o.result, o.invocations + 1, d :: o.delays⟩

/-- Model of withRetry (defaults in the source: maxRetries 3 from the
environment, baseDelay 1000; there is no maxDelay parameter). -/
def withRetryM (op : Nat → Except JsError α) (maxRetries baseDelay : Nat)
    (jitter : Nat → Nat) : RetryOutcome JsError α :=
  withRetryGo op baseDelay jitter 0 maxRetries

/-- Sum of a delay schedule over attempts a, a+1, ..., a+r-1. -/
def schedSum (f : Nat → Nat) : Nat → Nat → Nat
  | _, 0 => 0
  | a, r + 1 => f a + schedSum f (a + 1) r

/-! ## Timed model for the timeout composition

executeWithOpenRouter composes the two wrappers as a timeout around the
whole retry loop.  Settlement times are modelled explicitly: an
operation maps the attempt number to its duration and outcome, the retry
loop accumulates durations and backoff delays, and the timeout race
resolves to whichever side settles first (the embedded scenarios never
tie). -/

structure TimedOutcome (α : Type) where
  finishTime : Nat
  result : Except JsError α

/-- Timed loop of withRetry: start time t, current attempt, remaining
budget. -/
def timedWithRetryGo (op : Nat → Nat × Except JsError α) (baseDelay : Nat)
    (jitter : Nat → Nat) : Nat → Nat → Nat → TimedOutcome α
  | t, attempt, remaining =>
    let step := op attempt
    let t1 := t + step.1
    match step.2 with
    | Except.ok v => ⟨t1, Except.ok v⟩
    | Except.error e =>
      if !(jsErrorRetryable e) then ⟨t1, Except.error e⟩
      else
        match remaining with
        | 0 => ⟨t1, Except.error e⟩
        | r + 1 =>
          timedWithRetryGo op baseDelay jitter
            (t1 + (baseDelay * 2 ^ attempt + jitter attempt)) (attempt + 1) r

def timedWithRetryM (op : Nat → Nat × Except JsError α) (maxRetries baseDelay : Nat)
    (jitter : Nat → Nat) : TimedOutcome α :=
  timedWithRetryGo op baseDelay jitter 0 0 maxRetries

/-- Model of withTimeout as a race: the wrapped computation wins when it
settles strictly before the timer, otherwise the AppError with message
Operation timed out, status 408, code TIMEOUT wins at the deadline. -/
def timedWithTimeoutM (c : TimedOutcome α) (ms : Nat) : TimedOutcome α :=
  if c.finishTime < ms then c
  else ⟨ms, Except.error (JsError.app "Operation timed out" 408 "TIMEOUT")⟩

/-- Model of the error envelope of executeWithOpenRouter: the timeout is
applied around the whole retried operation with the hard-coded 30000 ms
budget, and any error is caught into a success-false result carrying the
error message. -/
def executeWithOpenRouterOutcome (op : Nat → Nat × Except JsError α)
    (maxRetries baseDelay : Nat) (jitter : Nat → Nat) : Bool × Option String :=
  match (timedWithTimeoutM (timedWithRetryM op maxRetries baseDelay jitter) 30000).result with
  | Except.ok _ => (true, none)
  | Except.error e => (false, some e.message)

/-- Resilience wrapper as the specification words it (section 4.3): each
individual attempt is wrapped with its own timeout, a timed-out attempt
raises the timeout error and counts as a retryable failure, and
validation-class errors are not retried.  Stated from the specification
for comparison with the composition the source actually builds. -/
def specPerAttemptResilience (op : Nat → Nat × Except JsError α) (timeoutMs : Nat) :
    Nat → Nat → Except JsError α
  | attempt, remaining =>
    let step := op attempt
    let r1 :=
      if timeoutMs ≤ step.1 then
        Except.error (JsError.app "Operation timed out" 408 "TIMEOUT")
      else step.2
    match r1 with
    | Except.ok v => Except.ok v
    | Except.error e =>
      if !(jsErrorRetryable e) then Except.error e
      else
        match remaining with
        | 0 => Except.error e
        | r + 1 => specPerAttemptResilience op timeoutMs (attempt + 1) r

/-- Last error wrapped to indicate retry exhaustion and the attempt
count, as the specification words it (section 4.3); stated from the
specification for comparison with the unwrapped propagation of the
source. -/
def specRetryExhaustedWrap (attempts : Nat) (msg : String) : String :=
  "Retry exhausted after " ++ toString attempts ++ " attempts: " ++ msg

/-! ## Streaming loops

Both server-sent-events consumers of the source, modelled over the
decoded text chunks in arrival order.  Each chunk is split into lines
and scanned for data frames; content deltas are appended in order. -/

/-- Model of String.prototype.split on a newline. -/
def splitLines : List Char → List (List Char)
  | [] => [[]]
  | c :: rest =>
    let r := splitLines rest
    if c == '\n' then [] :: r
    else
      match r with
      | h :: t => (c :: h) :: t
      | [] => [[c]]

/-- Model of String.prototype.trim (ASCII whitespace; all embedded
inputs are ASCII). -/
def trimChars (cs : List Char) : List Char :=
  ((cs.dropWhile isJsWsChar).reverse.dropWhile isJsWsChar).reverse

/-- The optional-chaining read choices[0].delta.content. -/
def deltaContentPath (j : Json) : Option Json :=
  ((jsGetField j "choices").bind (fun c => jsIndex c 0)).bind
    (fun c => (jsGetField c "delta").bind (fun d => jsGetField d "content"))

/-- The optional-chaining read choices[0].message.content. -/
def messageContentPath (j : Json) : Option Json :=
  ((jsGetField j "choices").bind (fun c => jsIndex c 0)).bind
    (fun c => (jsGetField c "message").bind (fun d => jsGetField d "content"))

/-- The nullish-coalescing operator: the fallback is taken exactly when
the left side is undefined or null. -/
def nullishElse (a : Option Json) (fallback : Json) : Json :=
  match a with
  | some Json.null => fallback
  | none => fallback
  | some v => v

/-- State of the streaming loop of createStreamingCompletion: the
accumulated content, the values passed to the onChunk callback (one per
invocation, in order), and the last usage frame seen. -/
structure CCStreamState where
  fullContent : String
  calls : List Json
  usage : Option Json

/-- Line filter of createStreamingCompletion: nonempty after trimming. -/
def ccLines (chunk : String) : List (List Char) :=
  (splitLines chunk.data).filter (fun l => !(trimChars l).isEmpty)

/-- Line loop of createStreamingCompletion over one chunk.  A DONE frame
breaks out of this loop only — the remaining chunks of the stream are
still processed, as in the source.  The callback receives the delta
value alone. -/
def ccProcessLines : List (List Char) → CCStreamState → CCStreamState
  | [], st => st
  | line :: rest, st =>
    if ("data: ".data).isPrefixOf line then
      let data := line.drop 6
      if data == ("[DONE]".data) then st
      else
        match jsonParseChars data with
        | none => ccProcessLines rest st
        | some parsed =>
          let st1 :=
            match deltaContentPath parsed with
            | some c =>
              if jsTruthy c then
                { st with fullContent := st.fullContent ++ jsToStr c, calls := st.calls ++ [c] }
              else st
            | none => st
          let st2 :=
            match jsGetField parsed "usage" with
            | some u => if jsTruthy u then { st1 with usage := some u } else st1
            | none => st1
          ccProcessLines rest st2
    else ccProcessLines rest st

def ccProcessChunks : List String → CCStreamState → CCStreamState
  | [], st => st
  | chunk :: rest, st => ccProcessChunks rest (ccProcessLines (ccLines chunk) st)

/-- Model of the stream-reading loop of createStreamingCompletion. -/
def createStreamingCompletionProcess (chunks : List String) : CCStreamState :=
  ccProcessChunks chunks ⟨"", [], none⟩

/-- State of the streaming loop of the run method of the second
BaseAgent: the accumulated text and the (token, fullText) pairs passed
to onToken, one per invocation, in order. -/
structure RunStreamState where
  fullText : String
  calls : List (String × String)

/-- Line loop of the run method: trim, require the data marker, skip
empty and DONE payloads, parse, take the delta with its message-content
and empty-string fallbacks, and on a nonempty string delta append it and
call onToken with the delta and the accumulated text. -/
def runProcessLines : List (List Char) → RunStreamState → RunStreamState
  | [], st => st
  | rawLine :: rest, st =>
    let line := trimChars rawLine
    if !(("data:".data).isPrefixOf line) then runProcessLines rest st
    else
      let payload := trimChars (line.drop 5)
      if payload.isEmpty || payload == ("[DONE]".data) then runProcessLines rest st
      else
        match jsonParseChars payload with
        | none => runProcessLines rest st
        | some j =>
          match nullishElse (deltaContentPath j) (nullishElse (messageContentPath j) (Json.str "")) with
          | Json.str s =>
            if s.length > 0 then
              runProcessLines rest ⟨st.fullText ++ s, st.calls ++ [(s, st.fullText ++ s)]⟩
            else runProcessLines rest st
          | _ => runProcessLines rest st

def runProcessChunks : List String → RunStreamState → RunStreamState
  | [], st => st
  | chunk :: rest, st => runProcessChunks rest (runProcessLines (splitLines chunk.data) st)

/-- Model of the streaming branch of the run method of the second
BaseAgent. -/
def baseAgentRunStream (chunks : List String) : RunStreamState :=
  runProcessChunks chunks ⟨"", []⟩

/-! ## The streamed scenario of the claims: frames Hel, lo, DONE -/

def frameHel : String := "data: \x7b\"choices\":[\x7b\"delta\":\x7b\"content\":\"Hel\"\x7d\x7d]\x7d"

def frameLo : String := "data: \x7b\"choices\":[\x7b\"delta\":\x7b\"content\":\"lo\"\x7d\x7d]\x7d"

def frameDone : String := "data: [DONE]"

def scenarioChunks : List String := [frameHel, frameLo, frameDone]

/-! ## Cost accounting

Model of calculateCost of the safe utilities and of the record method of
the token tracker.  Token counts and rates are rationals (JavaScript
number arithmetic on these decimal values is exact at the magnitudes
involved). -/

/-- The static rate table of calculateCost, dollars per thousand
tokens. -/
def modelCosts (model : String) : Option ℚ :=
  List.lookup model
    [("gpt-4o", (0.015 : ℚ)),
     ("gpt-4o-mini", (0.0005 : ℚ)),
     ("claude-3-sonnet-20240229", (0.015 : ℚ)),
     ("claude-3-haiku-20240307", (0.00025 : ℚ)),
     ("deepseek/deepseek-r1-0528:free", (0 : ℚ)),
     ("deepseek/deepseek-r1-distill-llama-70b", (0.00014 : ℚ))]

/-- Model of calculateCost.  The rate is read with the JavaScript
or-operator, whose fallback 0.01 is taken both for an absent entry and
for a present entry equal to zero (zero is falsy). -/
def calculateCost (tokens : ℚ) (model : String) : ℚ :=
  let costPer1k : ℚ :=
    match modelCosts model with
    | some c => if c = 0 then 0.01 else c
    | none => 0.01
  tokens / 1000 * costPer1k

/-- The pricing table of the token tracker (only the rate matters to the
claims; the display name, provider, context size and feature list of the
source rows do not enter any computation). -/
def trackerPricing (model : String) : Option ℚ :=
  List.lookup model
    [("gpt-4o", (0.015 : ℚ)),
     ("gpt-4o-mini", (0.0005 : ℚ)),
     ("claude-3-sonnet-20240229", (0.015 : ℚ)),
     ("claude-3-haiku-20240307", (0.00025 : ℚ)),
     ("deepseek/deepseek-r1-0528:free", (0 : ℚ)),
     ("deepseek/deepseek-r1-distill-llama-70b", (0.00014 : ℚ))]

structure UsageTriple where
  prompt : ℚ
  completion : ℚ
  total : ℚ

structure UsageAcc where
  prompt : ℚ := 0
  completion : ℚ := 0
  total : ℚ := 0
  cost : ℚ := 0

/-- Map update with insertion order preserved, as a JavaScript Map: an
existing key is overwritten in place, a new key is appended. -/
def setAssoc (l : List (String × UsageAcc)) (k : String) (v : UsageAcc) :
    List (String × UsageAcc) :=
  match l with
  | [] => [(k, v)]
  | (k0, v0) :: rest => if k0 == k then (k, v) :: rest else (k0, v0) :: setAssoc rest k v

/-- Model of the record method of the token tracker: an unknown model is
warned about and skipped without recording anything; a known model
accumulates the usage and the cost total / 1000 * rate. -/
def trackerRecord (usage : List (String × UsageAcc)) (model : String) (u : UsageTriple) :
    List (String × UsageAcc) :=
  match trackerPricing model with
  | none => usage
  | some rate =>
    let cost := u.total / 1000 * rate
    let current := (List.lookup model usage).getD {}
    setAssoc usage model
      { prompt := current.prompt + u.prompt
        completion := current.completion + u.completion
        total := current.total + u.total
        cost := current.cost + cost }

/-! ## OpenRouter client methods and the API-key preflight

Each client method validates the key before performing its network call.
The models return the settled result together with the list of HTTP
requests issued, so absence of a network side effect is the emptiness of
that list.  The response of a performed request is supplied as an
explicit parameter. -/

structure FetchResp where
  ok : Bool
  body : Json
  statusText : String

def apiKeyRequiredMsg : String :=
  "OpenRouter API key is required. Set OPENROUTER_API_KEY environment variable."

/-- Model of validateApiKey of the client: an empty key (the falsy
string) throws. -/
def validateApiKeyM (apiKey : String) : Except String Unit :=
  if apiKey == "" then Except.error apiKeyRequiredMsg else Except.ok ()

/-- Key resolution of the client constructor: the constructor argument,
else the environment key, else the empty string, each step by the
JavaScript or-operator (an absent value and an empty string both fall
through). -/
def resolveClientKey (ctorArg envKey : Option String) : String :=
  let a := ctorArg.getD ""
  if a == "" then
    let b := envKey.getD ""
    if b == "" then "" else b
  else a

def chatCompletionsUrl : String := "https://openrouter.ai/api/v1/chat/completions"

def modelsUrl : String := "https://openrouter.ai/api/v1/models"

def usageUrl : String := "https://openrouter.ai/api/v1/usage"

/-- The non-ok error message of the completion calls: the provider
message when present and nonempty, else the status text. -/
def openRouterErrMsg (resp : FetchResp) : String :=
  let providerMsg : Option String :=
    ((jsGetField resp.body "error").bind (fun e => jsGetField e "message")).bind
      (fun j => match j with | Json.str s => some s | _ => none)
  "OpenRouter API error: " ++
    (match providerMsg with
     | some s => if s == "" then resp.statusText else s
     | none => resp.statusText)

/-- Model of createChatCompletion: validate the key, then one POST to
the chat-completions endpoint. -/
def createChatCompletionM (apiKey : String) (resp : FetchResp) :
    Except String Json × List String :=
  match validateApiKeyM apiKey with
  | Except.error e => (Except.error e, [])
  | Except.ok _ =>
    if resp.ok then (Except.ok resp.body, [chatCompletionsUrl])
    else (Except.error (openRouterErrMsg resp), [chatCompletionsUrl])

/-- Model of createStreamingCompletion: validate the key, then one POST
whose body is consumed by the streaming loop. -/
def createStreamingCompletionM (apiKey : String) (resp : FetchResp) (chunks : List String) :
    Except String CCStreamState × List String :=
  match validateApiKeyM apiKey with
  | Except.error e => (Except.error e, [])
  | Except.ok _ =>
    if resp.ok then (Except.ok (createStreamingCompletionProcess chunks), [chatCompletionsUrl])
    else (Except.error (openRouterErrMsg resp), [chatCompletionsUrl])

/-- Model of getModels: validate the key, then one GET. -/
def getModelsM (apiKey : String) (resp : FetchResp) : Except String Json × List String :=
  match validateApiKeyM apiKey with
  | Except.error e => (Except.error e, [])
  | Except.ok _ =>
    if resp.ok then (Except.ok resp.body, [modelsUrl])
    else (Except.error ("Failed to fetch models: " ++ resp.statusText), [modelsUrl])

/-- Model of getUsage: validate the key, then one GET. -/
def getUsageM (apiKey : String) (resp : FetchResp) : Except String Json × List String :=
  match validateApiKeyM apiKey with
  | Except.error e => (Except.error e, [])
  | Except.ok _ =>
    if resp.ok then (Except.ok resp.body, [usageUrl])
    else (Except.error ("Failed to fetch usage: " ++ resp.statusText), [usageUrl])

/-- Model of the credential preflight of the run method of the second
BaseAgent: the three environment keys are tried with nullish
coalescing, and a missing or empty result throws before the fetch.  The
effect list again records the HTTP requests issued. -/
def baseAgentRunKeyCheck (k1 k2 k3 : Option String) (agentName : String) :
    Except String Unit × List String :=
  let missing := "[" ++ agentName ++ "] Missing OPENROUTER_API_KEY or OPENAI_API_KEY in environment."
  match k1 <|> k2 <|> k3 with
  | none => (Except.error missing, [])
  | some k =>
    if k == "" then (Except.error missing, [])
    else (Except.ok (), [chatCompletionsUrl])

/-! ## Agent results and the pipeline runners

The agent behaviours themselves are external (each is one templated
completion call), so the runners are modelled over an oracle giving the
outcome of the n-th invocation of each agent; a thrown execute is the
error branch.  The result record keeps the fields the claims concern
(the latency, model and executionId fields of the source are
timing-dependent and carry no control flow). -/

structure AgentResultM where
  success : Bool
  data : Option Json := none
  error : Option String := none

def AgentOracle : Type := String → Nat → Except String AgentResultM

/-- The five registered agent names of the runner constructor. -/
def knownAgents : List String :=
  ["website-architect", "content-writer", "layout-designer", "export-compiler", "deployment"]

/-- Model of runAgent: an unregistered name throws before the try block;
a thrown execute is caught into a failure result carrying the message.
The executedBefore trace supplies the per-agent invocation count to the
oracle. -/
def runAgentM (oracle : AgentOracle) (executedBefore : List String) (name : String) :
    Except String AgentResultM :=
  if knownAgents.contains name then
    match oracle name (executedBefore.count name) with
    | Except.ok r => Except.ok r
    | Except.error e => Except.ok { success := false, error := some e }
  else Except.error ("Agent " ++ sqWrap name ++ " not found")

structure PipeStep where
  agentName : String
  dependsOn : Option (List String) := none

structure PipeState where
  results : List AgentResultM := []
  errors : List String := []
  completedAgents : List String := []
  executed : List String := []

/-- One iteration of the runAgentPipeline loop: a step with unmet
dependencies records an error and is skipped; otherwise the agent runs,
a success is appended to results and marks the agent completed, a
failure or a thrown error is appended to errors — and in every case the
loop continues with the next step. -/
def runPipelineStep (oracle : AgentOracle) (st : PipeState) (step : PipeStep) : PipeState :=
  let missing :=
    match step.dependsOn with
    | some deps => deps.filter (fun d => !(st.completedAgents.contains d))
    | none => []
  if !missing.isEmpty then
    { st with
        errors := st.errors ++
          ["Step " ++ sqWrap step.agentName ++ " depends on: " ++ String.intercalate ", " missing] }
  else
    let executed2 := st.executed ++ [step.agentName]
    match runAgentM oracle st.executed step.agentName with
    | Except.ok r =>
      if r.success then
        { st with
            results := st.results ++ [r]
            completedAgents := st.completedAgents ++ [step.agentName]
            executed := executed2 }
      else
        { st with
            errors := st.errors ++
              ["Agent " ++ sqWrap step.agentName ++ " failed: " ++ optStr r.error]
            executed := executed2 }
    | Except.error e =>
      { st with
          errors := st.errors ++
            ["Agent " ++ sqWrap step.agentName ++ " threw error: " ++ e]
          executed := executed2 }

structure PipeOutcome where
  success : Bool
  results : List AgentResultM
  errors : List String
  executed : List String

/-- Model of runAgentPipeline. -/
def runAgentPipelineM (oracle : AgentOracle) (steps : List PipeStep) : PipeOutcome :=
  let st := steps.foldl (runPipelineStep oracle) {}
  ⟨st.errors.isEmpty, st.results, st.errors, st.executed⟩

structure GenInput where
  description : String := ""
  style : Option String := none
  projectName : Option String := none
  industry : Option String := none
  targetAudience : Option String := none

def optJson : Option String → Json
  | some s => Json.str s
  | none => Json.null

/-- Content loop of runWebsiteGenerationPipeline over the sitemap pages:
the first failing content step throws with the page title in the
message, ending the run. -/
def wgpContentLoop (oracle : AgentOracle) (pages : List Json)
    (acc : List (String × Option Json)) (executed : List String) :
    Except String (List (String × Option Json)) × List String :=
  match pages with
  | [] => (Except.ok acc, executed)
  | p :: rest =>
    let executed2 := executed ++ ["content-writer"]
    match runAgentM oracle executed "content-writer" with
    | Except.error e => (Except.error e, executed2)
    | Except.ok r =>
      if r.success then
        let pid := match jsGetField p "id" with | some v => jsToStr v | none => "undefined"
        wgpContentLoop oracle rest (acc ++ [(pid, r.data)]) executed2
      else
        let ptitle := match jsGetField p "title" with | some v => jsToStr v | none => "undefined"
        (Except.error
          ("Content generation failed for page " ++ sqWrap ptitle ++ ": " ++ optStr r.error),
         executed2)

/-- Model of runWebsiteGenerationPipeline: architecture, then content
per sitemap page, then layout, each failure thrown at once; the error
branch is the thrown error, the trace lists the agents invoked.  The
generatedAt timestamp is passed in (the source takes the current time);
a missing or non-array sitemap raises the JavaScript TypeError, modelled
by its message text. -/
def runWebsiteGenerationPipelineM (oracle : AgentOracle) (input : GenInput) (now : String) :
    Except String Json × List String :=
  let ex1 := ["website-architect"]
  match runAgentM oracle [] "website-architect" with
  | Except.error e => (Except.error e, ex1)
  | Except.ok ar =>
    if !ar.success then
      (Except.error ("Website architecture generation failed: " ++ optStr ar.error), ex1)
    else
      match ar.data with
      | none => (Except.error "TypeError: cannot read sitemap of undefined", ex1)
      | some arch =>
        match jsGetField arch "sitemap" with
        | some (Json.arr pages) =>
          match wgpContentLoop oracle pages [] ex1 with
          | (Except.error e, ex2) => (Except.error e, ex2)
          | (Except.ok contentPairs, ex2) =>
            let ex3 := ex2 ++ ["layout-designer"]
            match runAgentM oracle ex2 "layout-designer" with
            | Except.error e => (Except.error e, ex3)
            | Except.ok lr =>
              if !lr.success then
                (Except.error ("Layout generation failed: " ++ optStr lr.error), ex3)
              else
                let contentObj := Json.obj (contentPairs.map (fun pr => (pr.1, pr.2.getD Json.null)))
                let metadata := Json.obj
                  [("projectName", optJson input.projectName),
                   ("description", Json.str input.description),
                   ("style", optJson input.style),
                   ("industry", optJson input.industry),
                   ("targetAudience", optJson input.targetAudience),
                   ("generatedAt", Json.str now)]
                (Except.ok (Json.obj
                  [("architecture", arch),
                   ("content", contentObj),
                   ("layout", lr.data.getD Json.null),
                   ("metadata", metadata)]), ex3)
        | _ => (Except.error "TypeError: architecture.sitemap is not iterable", ex1)

/-! ## Shared unfolding lemmas and general facts about the retry loops -/

/-- One-step unfolding of the safeRetry loop. -/
theorem safeRetryGo_eq {α : Type} (op : Nat → Except String α) (b mD a r : Nat) :
    safeRetryGo op b mD a r =
      match op a with
      | Except.ok v => ⟨Except.ok v, 1, []⟩
      | Except.error e =>
        if nonRetryableMsg e then ⟨Except.error e, 1, []⟩
        else
          match r with
          | 0 => ⟨Except.error e, 1, []⟩
          | rr + 1 =>
            let o := safeRetryGo op b mD (a + 1) rr
            ⟨o.result, o.invocations + 1, min (b * 2 ^ a) mD :: o.delays⟩ := by
  rw [safeRetryGo]

/-- One-step unfolding of the withRetry loop. -/
theorem withRetryGo_eq {α : Type} (op : Nat → Except JsError α) (b : Nat) (j : Nat → Nat)
    (a r : Nat) :
    withRetryGo op b j a r =
      match op a with
      | Except.ok v => ⟨Except.ok v, 1, []⟩
      | Except.error e =>
        if !(jsErrorRetryable e) then ⟨Except.error e, 1, []⟩
        else
          match r with
          | 0 => ⟨Except.error e, 1, []⟩
          | rr + 1 =>
            let o := withRetryGo op b j (a + 1) rr
            ⟨o.result, o.invocations + 1, (b * 2 ^ a + j a) :: o.delays⟩ := by
  rw [withRetryGo]

/-- One-step unfolding of the timed withRetry loop. -/
theorem timedWithRetryGo_eq {α : Type} (op : Nat → Nat × Except JsError α) (b : Nat)
    (j : Nat → Nat) (t a r : Nat) :
    timedWithRetryGo op b j t a r =
      match (op a).2 with
      | Except.ok v => ⟨t + (op a).1, Except.ok v⟩
      | Except.error e =>
        if !(jsErrorRetryable e) then ⟨t + (op a).1, Except.error e⟩
        else
          match r with
          | 0 => ⟨t + (op a).1, Except.error e⟩
          | rr + 1 =>
            timedWithRetryGo op b j (t + (op a).1 + (b * 2 ^ a + j a)) (a + 1) rr := by
  rw [timedWithRetryGo]

/-- On an operation whose every attempt fails with a retryable message,
the safeRetry loop from attempt a with budget r performs r + 1
invocations and settles on the error of the last attempt, unchanged. -/
theorem safeRetryGo_allFail {α : Type} (e : Nat → String) (b mD : Nat)
    (h : ∀ i, nonRetryableMsg (e i) = false) :
    ∀ (r a : Nat),
      (safeRetryGo (α := α) (fun i => Except.error (e i)) b mD a r).result
          = Except.error (e (a + r))
      ∧ (safeRetryGo (α := α) (fun i => Except.error (e i)) b mD a r).invocations = r + 1 := by
  intro r
  induction r with
  | zero =>
    intro a
    rw [safeRetryGo_eq]
    simp [h a]
  | succ n ih =>
    intro a
    have h2 := ih (a + 1)
    have ha : a + 1 + n = a + (n + 1) := by omega
    rw [safeRetryGo_eq]
    simp only [h a, if_false]
    refine ⟨?_, ?_⟩
    · simpa [ha] using h2.1
    · simpa using h2.2

/-- The analogue of the previous lemma for the withRetry loop: every
attempt failing with a retried error class gives r + 1 invocations and
the raw last error. -/
theorem withRetryGo_allFail {α : Type} (e : Nat → JsError) (b : Nat) (j : Nat → Nat)
    (h : ∀ i, jsErrorRetryable (e i) = true) :
    ∀ (r a : Nat),
      (withRetryGo (α := α) (fun i => Except.error (e i)) b j a r).result
          = Except.error (e (a + r))
      ∧ (withRetryGo (α := α) (fun i => Except.error (e i)) b j a r).invocations = r + 1 := by
  intro r
  induction r with
  | zero =>
    intro a
    rw [withRetryGo_eq]
    simp [h a]
  | succ n ih =>
    intro a
    have h2 := ih (a + 1)
    have ha : a + 1 + n = a + (n + 1) := by omega
    rw [withRetryGo_eq]
    simp only [h a, Bool.not_true, if_false]
    refine ⟨?_, ?_⟩
    · simpa [ha] using h2.1
    · simpa using h2.2

/-- The delays slept by the safeRetry loop are bounded by the capped
exponential schedule. -/
theorem safeRetryGo_delays_le {α : Type} (op : Nat → Except String α) (b mD : Nat) :
    ∀ (r a : Nat),
      (safeRetryGo op b mD a r).delays.sum ≤ schedSum (fun i => min (b * 2 ^ i) mD) a r := by
  intro r
  induction r with
  | zero =>
    intro a
    rw [safeRetryGo_eq]
    cases hop : op a with
    | ok v => simp [schedSum]
    | error e => cases hnr : nonRetryableMsg e <;> simp [schedSum]
  | succ n ih =>
    intro a
    rw [safeRetryGo_eq]
    cases hop : op a with
    | ok v => simp
    | error e =>
      cases hnr : nonRetryableMsg e with
      | true => simp [hnr]
      | false =>
        simp [hnr, schedSum]
        have := ih (a + 1)
        omega

/-- The delays slept by the withRetry loop are bounded by the uncapped
exponential schedule plus the jitter bound of 999 ms per attempt. -/
theorem withRetryGo_delays_le {α : Type} (op : Nat → Except JsError α) (b : Nat) (j : Nat → Nat)
    (hj : ∀ i, j i ≤ 999) :
    ∀ (r a : Nat),
      (withRetryGo op b j a r).delays.sum ≤ schedSum (fun i => b * 2 ^ i + 999) a r := by
  intro r
  induction r with
  | zero =>
    intro a
    rw [withRetryGo_eq]
    cases hop : op a with
    | ok v => simp [schedSum]
    | error e => cases hr : jsErrorRetryable e <;> simp [schedSum]
  | succ n ih =>
    intro a
    rw [withRetryGo_eq]
    cases hop : op a with
    | ok v => simp
    | error e =>
      cases hr : jsErrorRetryable e with
      | false => simp [hr]
      | true =>
        simp [hr, schedSum]
        have := ih (a + 1)
        have hja := hj a
        omega

/-- On an operation whose every attempt fails with a plain error, the
settlement time of the timed retry loop is at least the start time plus
the durations of all its attempts. -/
theorem timedWithRetryGo_time_ge (dur : Nat → Nat) (em : Nat → String) (b : Nat)
    (j : Nat → Nat) :
    ∀ (r t a : Nat),
      schedSum dur a (r + 1) + t ≤
        (timedWithRetryGo (α := Unit)
          (fun i => (dur i, Except.error (JsError.generic (em i)))) b j t a r).finishTime := by
  intro r
  induction r with
  | zero =>
    intro t a
    rw [timedWithRetryGo_eq]
    simp [jsErrorRetryable, schedSum]
    omega
  | succ n ih =>
    intro t a
    rw [timedWithRetryGo_eq]
    simp only [jsErrorRetryable, Bool.not_true, if_false]
    have h2 := ih (t + dur a + (b * 2 ^ a + j a)) (a + 1)
    simp [schedSum] at h2 ⊢
    omega

/-! ## Concrete inputs shared by the claim theorems -/

/-- Agent oracle where the architect fails with message boom and every
other agent succeeds with an empty object. -/
def c1OracleEx : AgentOracle := fun name _ =>
  if name == "website-architect" then Except.ok { success := false, error := some "boom" }
  else Except.ok { success := true, data := some (Json.obj []) }

/-- A two-step pipeline with no declared dependencies. -/
def c1Steps : List PipeStep :=
  [{ agentName := "website-architect" }, { agentName := "content-writer" }]

/-- An operation that always throws a plain error with message E. -/
def alwaysE : Nat → Except String Unit := fun _ => Except.error "E"

/-- An operation that always throws a plain error with message boom. -/
def alwaysBoom : Nat → Except JsError Unit := fun _ => Except.error (JsError.generic "boom")

/-- A timed operation: every attempt lasts 20000 ms and fails with a
plain error with message boom (each attempt individually well under the
30000 ms budget). -/
def timedBoom : Nat → Nat × Except JsError Unit :=
  fun _ => (20000, Except.error (JsError.generic "boom"))

/-! ## Claim C1 -/

/-- C1 counterexample: the claim says that once a step result has
success false no further steps of the run execute.  In the model of
runAgentPipeline, a two-step pipeline whose first agent fails still
executes the second agent: the executed trace lists both agents, the
run merely collects the failure message and reports overall success
false. -/
theorem c1_counterexample :
    (runAgentPipelineM c1OracleEx c1Steps).executed = ["website-architect", "content-writer"]
    ∧ (runAgentPipelineM c1OracleEx c1Steps).success = false
    ∧ (runAgentPipelineM c1OracleEx c1Steps).errors
        = ["Agent " ++ sqWrap "website-architect" ++ " failed: boom"] :=
  ⟨rfl, rfl, rfl⟩

/-- C1 amended: runWebsiteGenerationPipeline does stop at once on a
failing step — an architect failure throws with the failing step error
in the message and no later agent is invoked — whereas runAgentPipeline
records the failure in its error list and continues with the remaining
steps, whose successful results are still collected. -/
theorem c1_amended :
    (∀ (oracle : AgentOracle) (input : GenInput) (now : String) (r : AgentResultM),
        oracle "website-architect" 0 = Except.ok r → r.success = false →
        runWebsiteGenerationPipelineM oracle input now =
          (Except.error ("Website architecture generation failed: " ++ optStr r.error),
           ["website-architect"]))
    ∧ (runAgentPipelineM c1OracleEx c1Steps).results
        = [{ success := true, data := some (Json.obj []), error := none }] := by
  constructor
  · intro oracle input now r h hs
    simp [runWebsiteGenerationPipelineM, runAgentM, knownAgents, h, hs]
  · rfl

/-- C1 witness: the halting branch of the amended claim evaluated at the
concrete failing oracle. -/
theorem c1_amended_witness :
    runWebsiteGenerationPipelineM c1OracleEx {} "t0" =
      (Except.error "Website architecture generation failed: boom", ["website-architect"]) := by
  simpa using c1_amended.1 c1OracleEx {} "t0" { success := false, error := some "boom" } rfl rfl

/-! ## Claim C2 -/

/-- C2 counterexample: the claim says extractJson succeeds on the
trailing-comma object and on the single-quoted object via a repair
pass.  extractJsonFromText returns null (none) on both inputs: its
brace-regex match parses strictly and a parse failure returns null at
once, with no repair pass anywhere in the function. -/
theorem c2_counterexample :
    extractJsonFromText inputTrailingComma = none
    ∧ extractJsonFromText inputSingleQuoted = none :=
  ⟨rfl, rfl⟩

/-- C2 amended: extractJsonFromText returns null on both near-JSON
inputs; the permissive repair the specification describes lives in the
separate SecurityService.repairJson, which strips the trailing comma
and normalizes the single-quoted key, returning the object with field a
equal to 1 on both inputs. -/
theorem c2_amended :
    repairJson inputTrailingComma = Except.ok (Json.obj [("a", Json.num 1 0)])
    ∧ repairJson inputSingleQuoted = Except.ok (Json.obj [("a", Json.num 1 0)])
    ∧ extractJsonFromText inputTrailingComma = none
    ∧ extractJsonFromText inputSingleQuoted = none :=
  ⟨rfl, rfl, rfl, rfl⟩

/-! ## Claim C3 -/

/-- C3 counterexample: the claim says validateContract checks dot-paths
and, at the empty object with required field a.b and registered default,
succeeds returning the backfilled object.  validateJsonStructure does
not traverse dot-paths: even on the very object the claim says is the
successful result — a containing b equal to 0 — the check returns
false, because the literal key a.b is absent; and on the empty object it
returns the plain boolean false, there is no default registry and no
error value naming the path. -/
theorem c3_counterexample :
    validateJsonStructure (Json.obj [("a", Json.obj [("b", Json.num 0 0)])]) ["a.b"] = false
    ∧ validateJsonStructure (Json.obj []) ["a.b"] = false :=
  ⟨rfl, rfl⟩

/-- C3 amended: validateJsonStructure returns a boolean equal to the
conjunction of truthiness, typeof object, and literal top-level
membership of every required field name; the empty object with required
field a.b yields false, and an object with the literal key a.b yields
true. -/
theorem c3_amended :
    validateJsonStructure (Json.obj []) ["a.b"] = false
    ∧ validateJsonStructure (Json.obj [("a.b", Json.num 0 0)]) ["a.b"] = true
    ∧ (∀ (d : Json) (req : List String),
        validateJsonStructure d req
          = (jsTruthy d && (jsTypeofObject d && req.all (fun f => jsHasProp d f)))) := by
  refine ⟨rfl, rfl, ?_⟩
  intro d req
  cases h1 : jsTruthy d <;> cases h2 : jsTypeofObject d <;>
    simp [validateJsonStructure, h1, h2]

/-! ## Claim C4 -/

/-- C4 counterexample: the claim says the wrapper, after exhausting its
retries, propagates the last error wrapped to indicate exhaustion and
the attempt count.  safeRetry with maxRetries 2 on an operation that
always throws E performs the three invocations but settles on the raw
error E itself, not on any wrapping of it such as the exhaustion message
the specification words describe. -/
theorem c4_counterexample :
    (safeRetryM alwaysE 2 1000 10000).result = Except.error "E"
    ∧ (safeRetryM alwaysE 2 1000 10000).invocations = 3
    ∧ "E" ≠ specRetryExhaustedWrap 3 "E" :=
  ⟨rfl, rfl, by decide⟩

/-- C4 amended: on an operation failing every attempt with a retryable
error, both wrappers invoke the operation exactly maxRetries + 1 times
and then propagate the error of the last attempt unchanged (not
wrapped). -/
theorem c4_amended :
    (∀ (e : Nat → String) (mR b mD : Nat), (∀ i, nonRetryableMsg (e i) = false) →
        (safeRetryM (α := Unit) (fun i => Except.error (e i)) mR b mD).result
            = Except.error (e mR)
        ∧ (safeRetryM (α := Unit) (fun i => Except.error (e i)) mR b mD).invocations = mR + 1)
    ∧ (∀ (e : Nat → JsError) (mR b : Nat) (j : Nat → Nat),
        (∀ i, jsErrorRetryable (e i) = true) →
        (withRetryM (α := Unit) (fun i => Except.error (e i)) mR b j).result
            = Except.error (e mR)
        ∧ (withRetryM (α := Unit) (fun i => Except.error (e i)) mR b j).invocations = mR + 1) := by
  constructor
  · intro e mR b mD h
    have h2 := safeRetryGo_allFail (α := Unit) e b mD h mR 0
    simpa [safeRetryM] using h2
  · intro e mR b j h
    have h2 := withRetryGo_allFail (α := Unit) e b j h mR 0
    simpa [withRetryM] using h2

/-- C4 witness: the amended claim evaluated at the always-failing
operation with message E and maxRetries 2. -/
theorem c4_amended_witness :
    (safeRetryM (α := Unit) (fun _ => Except.error "E") 2 1000 10000).result = Except.error "E"
    ∧ (safeRetryM (α := Unit) (fun _ => Except.error "E") 2 1000 10000).invocations = 3 := by
  have h := c4_amended.1 (fun _ => "E") 2 1000 10000 (fun _ => rfl)
  simpa using h

/-! ## Claim C5 -/

/-- C5 counterexample: the claim bounds every backoff delay by the
capped exponential min (baseDelayMs * 2 ^ attempt) maxDelayMs.  withRetry
adds a random jitter of up to 1000 ms and has no cap at all: with base
delay 1000 and an attainable jitter of 999 its first delay is 1999,
above the bound 1000 for attempt 0 whatever the cap. -/
theorem c5_counterexample :
    (withRetryM alwaysBoom 3 1000 (fun _ => 999)).delays = [1999, 2999, 4999]
    ∧ ¬ (1999 ≤ min (1000 * 2 ^ 0) 10000) :=
  ⟨rfl, by decide⟩

/-- C5 amended: safeRetry does satisfy the claimed bound — its total
slept delay is at most the sum over attempts of the capped exponential —
while for withRetry the bound must be loosened to the uncapped
exponential plus the 999 ms jitter ceiling per attempt. -/
theorem c5_amended :
    (∀ (op : Nat → Except String Unit) (mR b mD : Nat),
        (safeRetryM op mR b mD).delays.sum ≤ schedSum (fun i => min (b * 2 ^ i) mD) 0 mR)
    ∧ (∀ (op : Nat → Except JsError Unit) (mR b : Nat) (j : Nat → Nat), (∀ i, j i ≤ 999) →
        (withRetryM op mR b j).delays.sum ≤ schedSum (fun i => b * 2 ^ i + 999) 0 mR) := by
  constructor
  · intro op mR b mD
    exact safeRetryGo_delays_le op b mD mR 0
  · intro op mR b j hj
    exact withRetryGo_delays_le op b j hj mR 0

/-- C5 witness: the loosened withRetry bound evaluated at the concrete
always-failing operation with jitter 999. -/
theorem c5_amended_witness :
    (withRetryM alwaysBoom 3 1000 (fun _ => 999)).delays.sum ≤
      schedSum (fun i => 1000 * 2 ^ i + 999) 0 3 :=
  c5_amended.2 alwaysBoom 3 1000 (fun _ => 999) (fun _ => Nat.le_refl 999)

/-! ## Claim C6 -/

/-- C6 counterexample: the claim says each attempt carries its own
timeout and a timeout never aborts the remaining retry attempts.  In
executeWithOpenRouter the timeout wraps the whole retry loop: with every
attempt lasting 20000 ms — individually well inside the 30000 ms budget,
so the per-attempt policy of the specification would retry through and
surface the operation error boom — the composition in the source fails
the whole call with the message Operation timed out. -/
theorem c6_counterexample :
    executeWithOpenRouterOutcome timedBoom 3 1000 (fun _ => 0)
        = (false, some "Operation timed out")
    ∧ specPerAttemptResilience timedBoom 30000 0 3 = Except.error (JsError.generic "boom")
    ∧ (timedBoom 0).1 < 30000
    ∧ "Operation timed out" ≠ "boom" :=
  ⟨rfl, rfl, by decide, by decide⟩

/-- C6 amended: the 30000 ms timeout is a single budget over the entire
retried operation — whenever the attempt durations alone sum past it,
the call settles as a timeout failure regardless of what later attempts
would have returned. -/
theorem c6_amended :
    ∀ (dur : Nat → Nat) (em : Nat → String) (b : Nat) (j : Nat → Nat) (mR : Nat),
      30000 ≤ schedSum dur 0 (mR + 1) →
      executeWithOpenRouterOutcome (α := Unit)
          (fun i => (dur i, Except.error (JsError.generic (em i)))) mR b j
        = (false, some "Operation timed out") := by
  intro dur em b j mR h
  have ht := timedWithRetryGo_time_ge dur em b j mR 0 0
  unfold executeWithOpenRouterOutcome timedWithTimeoutM timedWithRetryM
  have hge : ¬ ((timedWithRetryGo (α := Unit)
      (fun i => (dur i, Except.error (JsError.generic (em i)))) b j 0 0 mR).finishTime
        < 30000) := by
    omega
  simp [hge, JsError.message]

/-- C6 witness: the amended claim evaluated at four attempts of 20000 ms
each. -/
theorem c6_amended_witness :
    executeWithOpenRouterOutcome (α := Unit)
        (fun _ => (20000, Except.error (JsError.generic "boom"))) 3 1000 (fun _ => 0)
      = (false, some "Operation timed out") := by
  have h := c6_amended (fun _ => 20000) (fun _ => "boom") 1000 (fun _ => 0) 3 (by decide)
  simpa using h

/-! ## Claim C7 -/

/-- C7 counterexample: the claim says the streaming client passes each
delta together with the accumulated text.  The onChunk callback of
createStreamingCompletion receives the delta value alone: on the frames
Hel and lo its two invocations carry exactly the strings Hel and lo —
the second carries no accumulated Hello anywhere. -/
theorem c7_counterexample :
    (createStreamingCompletionProcess scenarioChunks).calls = [Json.str "Hel", Json.str "lo"]
    ∧ (createStreamingCompletionProcess scenarioChunks).calls.get? 1 = some (Json.str "lo")
    ∧ Json.str "lo" ≠ Json.str "Hello" := by
  refine ⟨rfl, rfl, ?_⟩
  intro h
  injection h with h2
  exact absurd h2 (by decide)

/-- C7 amended: the streaming loop of the run method of the second
BaseAgent does invoke its callback once per chunk in arrival order with
the delta and the accumulated text — on the scenario frames the calls
are (Hel, Hel) then (lo, Hello) with final text Hello — while
createStreamingCompletion invokes its callback with the delta only,
still accumulating the same final text. -/
theorem c7_amended :
    (baseAgentRunStream scenarioChunks).calls = [("Hel", "Hel"), ("lo", "Hello")]
    ∧ (baseAgentRunStream scenarioChunks).fullText = "Hello"
    ∧ (createStreamingCompletionProcess scenarioChunks).calls = [Json.str "Hel", Json.str "lo"]
    ∧ (createStreamingCompletionProcess scenarioChunks).fullContent = "Hello" :=
  ⟨rfl, rfl, rfl, rfl⟩

/-! ## Claim C8 -/

/-- C8 counterexample: the claim says every unparsable input fails with
UnparsableResponseError and is never replaced by a null substitute.
extractJsonFromText on the input hello — which no strategy can parse —
returns exactly the null substitute the claim forbids, and the source
declares no UnparsableResponseError at all. -/
theorem c8_counterexample : extractJsonFromText "hello" = none := rfl

/-- C8 amended: when no strategy yields JSON, extractJsonFromText
returns null; runAndParse preserves the raw streamed text in its result
for every input, leaving the structured field undefined exactly when
JSON.parse fails. -/
theorem c8_amended :
    (∀ t : String, (runAndParseM t).1 = t ∧ (runAndParseM t).2 = jsonParseChars t.data)
    ∧ extractJsonFromText "no json here" = none := by
  refine ⟨?_, rfl⟩
  intro t
  cases h : jsonParseChars t.data <;> simp [runAndParseM, h]

/-! ## Claim C9 -/

/-- C9 counterexample: the claim says an unknown model gets rate 0 and
never a nonzero fallback.  calculateCost reads the rate table with the
JavaScript or-operator, whose fallback is the nonzero 0.01: for 1000
tokens of an unlisted model the cost is 1/100, not 0. -/
theorem c9_counterexample :
    calculateCost 1000 "no-such-model" = 1 / 100 ∧ (1 / 100 : ℚ) ≠ 0 := by
  constructor
  · simp [calculateCost, modelCosts, List.lookup]
    norm_num
  · norm_num

/-- C9 amended: for a listed model with a nonzero rate the cost is
tokens divided by 1000 times the rate, as claimed; an unknown model
falls back to the nonzero rate 0.01 in calculateCost (and so does the
listed zero-rate model, since zero is falsy under the or-operator),
while the record method of the token tracker skips an unknown model
entirely — with a logged warning — recording nothing, and records
total / 1000 times the rate for a known one. -/
theorem c9_amended :
    (∀ tokens : ℚ, calculateCost tokens "gpt-4o" = tokens / 1000 * 0.015)
    ∧ calculateCost 1000 "no-such-model" = 1 / 100
    ∧ calculateCost 1000 "deepseek/deepseek-r1-0528:free" = 1 / 100
    ∧ (∀ u : UsageTriple, trackerRecord [] "no-such-model" u = [])
    ∧ (∀ u : UsageTriple, trackerRecord [] "gpt-4o" u =
        [("gpt-4o",
          { prompt := u.prompt, completion := u.completion, total := u.total,
            cost := u.total / 1000 * 0.015 })]) := by
  refine ⟨?_, ?_, ?_, ?_, ?_⟩
  · intro tokens
    simp [calculateCost, modelCosts, List.lookup]
    norm_num
  · simp [calculateCost, modelCosts, List.lookup]
    norm_num
  · simp [calculateCost, modelCosts, List.lookup]
    norm_num
  · intro u
    rfl
  · intro u
    simp [trackerRecord, trackerPricing, List.lookup, setAssoc]

/-! ## Claim C10 -/

/-- C10 (confirmed): with no credential configured — the constructor
argument and the environment key both absent or empty — the resolved key
is the empty string, every client method (buffered completion, streaming
completion, model listing, usage query) settles with the key-required
error and an empty list of HTTP requests, and the run preflight of the
second BaseAgent likewise throws its missing-key error with no fetch
when the three environment keys are all absent or the first resolves
empty. -/
theorem c10_confirmed :
    (∀ ctorArg envKey : Option String,
        ctorArg.getD "" = "" → envKey.getD "" = "" → resolveClientKey ctorArg envKey = "")
    ∧ (∀ (resp : FetchResp) (chunks : List String),
        createChatCompletionM "" resp = (Except.error apiKeyRequiredMsg, [])
        ∧ createStreamingCompletionM "" resp chunks = (Except.error apiKeyRequiredMsg, [])
        ∧ getModelsM "" resp = (Except.error apiKeyRequiredMsg, [])
        ∧ getUsageM "" resp = (Except.error apiKeyRequiredMsg, []))
    ∧ (∀ (k1 k2 k3 : Option String) (name : String),
        ((k1 <|> k2 <|> k3) = none ∨ (k1 <|> k2 <|> k3) = some "") →
        baseAgentRunKeyCheck k1 k2 k3 name =
          (Except.error
            ("[" ++ name ++ "] Missing OPENROUTER_API_KEY or OPENAI_API_KEY in environment."),
           [])) := by
  refine ⟨?_, ?_, ?_⟩
  · intro a b h1 h2
    simp [resolveClientKey, h1, h2]
  · intro resp chunks
    exact ⟨rfl, rfl, rfl, rfl⟩
  · intro k1 k2 k3 name h
    rcases h with h | h <;> simp [baseAgentRunKeyCheck, h]

/-- C10 witness: the confirmed claim evaluated with no keys configured
at all. -/
theorem c10_witness :
    resolveClientKey none none = ""
    ∧ createChatCompletionM "" ⟨true, Json.null, "OK"⟩ = (Except.error apiKeyRequiredMsg, [])
    ∧ baseAgentRunKeyCheck none none none "Website Architect" =
        (Except.error
          ("[" ++ "Website Architect" ++
            "] Missing OPENROUTER_API_KEY or OPENAI_API_KEY in environment."),
         []) := by
  refine ⟨c10_confirmed.1 none none rfl rfl, (c10_confirmed.2.1 ⟨true, Json.null, "OK"⟩ []).1, ?_⟩
  exact c10_confirmed.2.2 none none none "Website Architect" (Or.inl rfl)

